import Mathlib

/-!
Verification of the Publish Orchestration & Token Lifecycle Subsystem of the
tiktok.admin.managerment repository.  Each definition is a shallow embedding
of one Python function or model, named after its source where Lean allows it:

* `RateLimiter.is_allowed`    — backend/core/utils/rate_limiter.py
* `needs_refresh`, `get_valid_access_token`
                              — tiktok_account_model.py, publish_post_task.py
* `sanitize_media_path`       — publish_post_task.py (with a faithful model of
                                posixpath.normpath)
* `publish_post`              — publish_post_task.py (network outcomes are an
                                oracle parameter)
* `check_scheduled_posts`     — check_scheduled_posts_task.py
* `calculate_chunks`, `upload_video_chunks`
                              — tiktok_publish_service.py
-/

namespace TikTokAdmin

/-! ### Rate limiter (backend/core/utils/rate_limiter.py) -/

structure RateLimiter where
  key_prefix : String
  max_calls : Nat
  time_window : Nat

/-- Cache state within a single time window (no key expires between the calls
under study): the counter stored for each cache key, `none` when absent. -/
def Cache : Type := String → Option Nat

def emptyCache : Cache := fun _ => none

def cacheSet (c : Cache) (k : String) (v : Nat) : Cache :=
  fun k2 => if k2 = k then some v else c k2

/-- Cache key built by `RateLimiter._get_cache_key`. -/
def mkKey (rl : RateLimiter) (identifier : String) : String :=
  "rate_limit:" ++ rl.key_prefix ++ ":" ++ identifier

/-- Embedding of `RateLimiter.is_allowed`: atomically increment the counter
(`cache.incr`, or `cache.add(key, 1, window)` when the key is absent) and
return `false` exactly when the post-increment value exceeds `max_calls`. -/
def RateLimiter.is_allowed (rl : RateLimiter) (c : Cache) (identifier : String) :
    Bool × Cache :=
  let key := mkKey rl identifier
  let new_count :=
    match c key with
    | some n => n + 1
    | none => 1
  let c2 := cacheSet c key new_count
  if new_count > rl.max_calls then (false, c2) else (true, c2)

/-- Results of `n` sequential `is_allowed` calls for one identifier. -/
def seqCalls (rl : RateLimiter) (c : Cache) (identifier : String) :
    Nat → List Bool × Cache
  | 0 => ([], c)
  | n + 1 =>
    let r1 := rl.is_allowed c identifier
    let r2 := seqCalls rl r1.2 identifier n
    (r1.1 :: r2.1, r2.2)

theorem is_allowed_counter (rl : RateLimiter) (c : Cache) (identifier : String)
    (k : Nat) (h : c (mkKey rl identifier) = some k ∨
      (c (mkKey rl identifier) = none ∧ k = 0)) :
    rl.is_allowed c identifier =
      (decide (k + 1 ≤ rl.max_calls),
        cacheSet c (mkKey rl identifier) (k + 1)) := by
  rcases h with h | ⟨h, hk⟩
  · simp only [RateLimiter.is_allowed, h]
    by_cases hle : k + 1 ≤ rl.max_calls
    · simp [Nat.not_lt.mpr hle, hle]
    · simp [Nat.lt_of_not_le hle, hle]
  · subst hk
    simp only [RateLimiter.is_allowed, h]
    by_cases hle : 0 + 1 ≤ rl.max_calls
    · simp only [Nat.zero_add] at hle ⊢
      simp [Nat.not_lt.mpr hle, hle]
    · simp only [Nat.zero_add] at hle ⊢
      simp [Nat.lt_of_not_le hle, hle]

theorem seqCalls_results (rl : RateLimiter) (identifier : String) :
    ∀ (n : Nat) (c : Cache) (k : Nat),
      (c (mkKey rl identifier) = some k ∨
        (c (mkKey rl identifier) = none ∧ k = 0)) →
      (seqCalls rl c identifier n).1 =
        (List.range n).map (fun i => decide (k + i + 1 ≤ rl.max_calls)) := by
  intro n
  induction n with
  | zero => intro c k _; simp [seqCalls]
  | succ m ih =>
    intro c k h
    have hstep := is_allowed_counter rl c identifier k h
    have hnext : cacheSet c (mkKey rl identifier) (k + 1) (mkKey rl identifier)
        = some (k + 1) := by
      unfold cacheSet; simp
    have ihm := ih (cacheSet c (mkKey rl identifier) (k + 1)) (k + 1)
      (Or.inl hnext)
    simp only [seqCalls, hstep, ihm]
    rw [List.range_succ_eq_map, List.map_cons, List.map_map]
    congr 1
    apply List.map_congr_left
    intro i _
    simp only [Function.comp_apply]
    rw [decide_eq_decide]
    omega

/-- C5: for every identifier, the n-th sequential `is_allowed` call within one
window returns `true` iff the post-increment counter value n does not exceed
`max_calls`; in particular six calls with `max_calls = 5` give
`[true, true, true, true, true, false]`. -/
theorem rate_limiter_sequence_correct :
    (∀ (rl : RateLimiter) (identifier : String) (n : Nat),
      (seqCalls rl emptyCache identifier n).1 =
        (List.range n).map (fun i => decide (i + 1 ≤ rl.max_calls)))
    ∧ (seqCalls ⟨"test", 5, 60⟩ emptyCache "x" 6).1 =
        [true, true, true, true, true, false] := by
  constructor
  · intro rl identifier n
    have h := seqCalls_results rl identifier n emptyCache 0
      (Or.inr ⟨rfl, rfl⟩)
    simpa using h
  · decide

/-! ### Token lifecycle (tiktok_account_model.py, publish_post_task.py) -/

structure TikTokAccount where
  username : String
  access_token : String
  refresh_token : Option String
  token_expires_at : Int
  is_deleted : Bool

/-- Embedding of `TikTokAccount.needs_refresh`: the token needs a refresh when
`now >= token_expires_at - 1 hour`.  Times are epoch seconds. -/
def needs_refresh (now : Int) (a : TikTokAccount) : Bool :=
  decide (now ≥ a.token_expires_at - 3600)

inductive TokenEvent
  | lockAcquire
  | refreshApiCall
deriving DecidableEq, Repr

/-- Embedding of `get_valid_access_token` from publish_post_task.py.
`refreshFn` abstracts `TikTokTokenRefreshService.refresh_account_token`
followed by `refresh_from_db`; the row lock (`select_for_update`) is acquired
inside `refresh_account_token`, so the refresh branch emits `lockAcquire` then
`refreshApiCall` and the fast path emits nothing. -/
def get_valid_access_token (now : Int) (refreshFn : TikTokAccount → TikTokAccount)
    (a : TikTokAccount) : String × List TokenEvent :=
  if needs_refresh now a then
    ((refreshFn a).access_token, [TokenEvent.lockAcquire, TokenEvent.refreshApiCall])
  else
    (a.access_token, [])

/-- C8: a refresh happens iff the credential expiry is within 1 hour of now;
when the expiry is more than 1 hour away the stored token is returned
unchanged, no refresh call is made and no lock is taken. -/
theorem token_refreshed_iff_expiring (now : Int)
    (refreshFn : TikTokAccount → TikTokAccount) (a : TikTokAccount) :
    ((get_valid_access_token now refreshFn a).2.contains TokenEvent.refreshApiCall
        = decide (a.token_expires_at ≤ now + 3600))
    ∧ ((get_valid_access_token now refreshFn a).2.contains TokenEvent.lockAcquire
        = decide (a.token_expires_at ≤ now + 3600))
    ∧ (now + 3600 < a.token_expires_at →
        get_valid_access_token now refreshFn a = (a.access_token, [])) := by
  unfold get_valid_access_token needs_refresh
  by_cases h : a.token_expires_at ≤ now + 3600
  · have h2 : now ≥ a.token_expires_at - 3600 := by omega
    refine ⟨?_, ?_, ?_⟩
    · simp [h2, h, List.contains]
    · simp [h2, h, List.contains]
    · intro hlt; omega
  · have h2 : ¬ now ≥ a.token_expires_at - 3600 := by omega
    refine ⟨?_, ?_, ?_⟩
    · simp [h2, h, List.contains]
    · simp [h2, h, List.contains]
    · intro _; simp [h2]

theorem token_refreshed_iff_expiring_witness :
    (0 : Int) + 3600 < 100000
    ∧ get_valid_access_token 0 id ⟨"alice", "tok", none, 100000, false⟩
      = ("tok", []) :=
  ⟨by decide,
    (token_refreshed_iff_expiring 0 id
      ⟨"alice", "tok", none, 100000, false⟩).2.2 (by decide)⟩

/-! ### Python string and path primitives (for sanitize_media_path) -/

/-- Python strings modelled as lists of characters. -/
abbrev PyStr := List Char

/-- Python str.split(sep) for a one-character separator. -/
def splitOnChar (sep : Char) : PyStr → List PyStr
  | [] => [[]]
  | c :: rest =>
    match splitOnChar sep rest with
    | [] => [[]]
    | w :: ws => if c = sep then [] :: w :: ws else (c :: w) :: ws

/-- Python sep.join(words) for a one-character separator. -/
def joinWith (sep : Char) : List PyStr → PyStr
  | [] => []
  | [w] => w
  | w :: ws => w ++ sep :: joinWith sep ws

/-- One step of posixpath.normpath's component loop: the body of the
`for comp in comps` loop acting on the `new_comps` accumulator. -/
def normpathStep (initialSlashes : Nat) (acc : List PyStr) (comp : PyStr) :
    List PyStr :=
  if comp = [] ∨ comp = ['.'] then acc
  else if comp ≠ ['.', '.'] ∨ (initialSlashes = 0 ∧ acc = [])
      ∨ (acc ≠ [] ∧ acc.getLast? = some ['.', '.']) then acc ++ [comp]
  else if acc ≠ [] then acc.dropLast
  else acc

/-- Embedding of posixpath.normpath (POSIX rules, as os.path.normpath resolves
on the deployment platform). -/
def normpath (path : PyStr) : PyStr :=
  if path = [] then ['.']
  else
    let initialSlashes : Nat :=
      if path.take 1 = ['/'] then
        if path.take 2 = ['/', '/'] ∧ ¬ path.take 3 = ['/', '/', '/'] then 2
        else 1
      else 0
    let comps := splitOnChar '/' path
    let newComps := comps.foldl (normpathStep initialSlashes) []
    let joined := List.replicate initialSlashes '/' ++ joinWith '/' newComps
    if joined = [] then ['.'] else joined

/-- Python `needle in hay` substring test. -/
def strContains (needle hay : PyStr) : Bool := decide (needle <:+: hay)

/-- Python os.path.isabs on POSIX: the path starts with a slash. -/
def isabs (p : PyStr) : Bool := p.take 1 = ['/']

/-- Python str.startswith. -/
def startswith (p pre : PyStr) : Bool := pre.isPrefixOf p

/-- Python str.lstrip(os.sep): remove every leading slash. -/
def lstripSlash (p : PyStr) : PyStr := p.dropWhile (fun c => c = '/')

/-- Python str.replace applied to single characters: backslash becomes slash. -/
def slashify (c : Char) : Char := if c = '\\' then '/' else c

/-- Characters admitted by the relative-path branch of sanitize_media_path. -/
def SAFE_CHARS : PyStr :=
  "abcdefghijklmnopqrstuvwxyzABCDEFGHIJKLMNOPQRSTUVWXYZ0123456789-_./\\ ".toList

def DOTDOT : PyStr := ['.', '.']

/-- Embedding of sanitize_media_path from publish_post_task.py.
`media_root_setting` is the raw `settings.MEDIA_ROOT` string. -/
def sanitize_media_path (media_root_setting : PyStr) (file_path : PyStr) :
    Option PyStr :=
  if file_path = [] then none
  else
    let normalized := normpath file_path
    if strContains DOTDOT normalized then none
    else if isabs normalized then
      let media_root := normpath media_root_setting
      if startswith normalized media_root then
        some ((lstripSlash (normalized.drop media_root.length)).map slashify)
      else none
    else if startswith normalized "/media/".toList
        ∨ startswith normalized "\\media\\".toList then
      some ((normalized.drop 7).map slashify)
    else if (normalized.map slashify).all (fun c => SAFE_CHARS.contains c) then
      some (normalized.map slashify)
    else none

example : normpath "a/../../etc/passwd".toList = "../etc/passwd".toList := by decide

example : sanitize_media_path "/app/media".toList "a/../../etc/passwd".toList
    = none := by decide

example : sanitize_media_path "/app/media".toList "/app/media/u/v.mp4".toList
    = some "u/v.mp4".toList := by decide

example : sanitize_media_path "/app/media".toList "\\media\\ph\\1.jpg".toList
    = some "ph/1.jpg".toList := by decide

example : sanitize_media_path "/app/media".toList "\\x".toList
    = some "/x".toList := by decide

example : sanitize_media_path "/app/media".toList "/app/mediaevil/x".toList
    = some "evil/x".toList := by decide

example : sanitize_media_path "/app/media".toList "/etc/passwd".toList
    = none := by decide

/-! ### Publish orchestrator (publish_post_task.py) -/

inductive PostStatus
  | draft | scheduled | queued | processing | pending | publishing
  | published | failed | cancelled
deriving DecidableEq, Repr

inductive MediaType
  | video | image | thumbnail | slideshow_source | slideshow_video
deriving DecidableEq, Repr

structure PostMedia where
  media_type : MediaType
  is_slideshow_source : Bool
  carousel_order : Nat
  file_path : PyStr
  is_deleted : Bool
deriving DecidableEq, Repr

structure Account where
  id : Nat
  username : String
  is_deleted : Bool
deriving DecidableEq, Repr

structure Post where
  status : PostStatus
  post_type : String
  accounts : List Account
  media : List PostMedia
  retry_count : Nat
  max_retries : Nat
  error_message : Option String
  published_at : Option Int
  is_deleted : Bool
deriving DecidableEq, Repr

inductive HistStatus
  | success | failed
deriving DecidableEq, Repr

/-- One PublishHistory row as finally saved for one (post, account) attempt. -/
structure HistoryRow where
  account : Account
  status : HistStatus
  error_message : Option String
  tiktok_video_id : Option String
deriving DecidableEq, Repr

/-- Outcome of one remote publish call for one account, as returned by
publish_video_to_tiktok / publish_photos_to_tiktok (these catch exceptions
and report them as error results). -/
inductive NetOutcome
  | ok (video_id : String)
  | err (msg : String)
deriving DecidableEq, Repr

inductive TaskResult
  | not_found
  | already_published
  | no_accounts
  | success (accounts_published : Nat)
  | max_retries_exceeded (retry_count : Nat)
  | retryScheduled (countdown : Nat)
deriving DecidableEq, Repr

structure PublishState where
  post : Post
  history : List HistoryRow
deriving DecidableEq, Repr

def retry_delays : List Nat := [300, 900, 1800]

/-- Retry countdown computed in the any-failure branch of publish_post:
`retry_delays[min(post.retry_count, len(retry_delays) - 1)]`, applied to the
already incremented retry_count. -/
def retryCountdown (retry_count : Nat) : Nat :=
  retry_delays.getD (min retry_count (retry_delays.length - 1)) 0

/-- Ladder stated by the publish_post docstring: attempt 2 after 300 s,
attempt 3 after 900 s, attempt 4 after 1800 s — so the n-th retry waits
300 s for n = 1, 900 s for n = 2, 1800 s after that. -/
def documented_retry_delay : Nat → Nat
  | 0 => 0
  | 1 => 300
  | 2 => 900
  | _ => 1800

/-- Insertion used to model the queryset `.order_by('carousel_order')`. -/
def insertByOrder (m : PostMedia) : List PostMedia → List PostMedia
  | [] => [m]
  | x :: xs =>
    if m.carousel_order ≤ x.carousel_order then m :: x :: xs
    else x :: insertByOrder m xs

def sortByOrder (l : List PostMedia) : List PostMedia := l.foldr insertByOrder []

/-- Image URLs built in the photo branch of publish_post: sanitize each media
path and keep the valid ones, each prefixed with BACKEND_PUBLIC_URL/media/. -/
def photoImageUrls (media_root backend_url : PyStr) (photo_media : List PostMedia) :
    List PyStr :=
  photo_media.filterMap fun m =>
    (sanitize_media_path media_root m.file_path).map
      fun p => backend_url ++ "/media/".toList ++ p

/-- Per-account branch of the publish loop in publish_post: choose the photo
or video path from the post's media and consult the network oracle `net`;
with no publishable media, fail without any remote call. -/
def attemptForAccount (net : Account → NetOutcome) (media_root backend_url : PyStr)
    (post : Post) (photo_media : List PostMedia) (video_media : Option PostMedia)
    (account : Account) : NetOutcome :=
  if post.post_type = "photo" ∧ photo_media.length ≥ 1 then
    if (photoImageUrls media_root backend_url photo_media).length < 1 then
      .err "Invalid media paths detected"
    else net account
  else if video_media.isSome then net account
  else if photo_media.length ≥ 1 then
    if (photoImageUrls media_root backend_url photo_media).length < 1 then
      .err "Invalid media paths detected"
    else net account
  else .err "No publishable media found (need video or 1+ photos)"

/-- History row finally saved for one account: pre-seeded as failed, updated
to success (with video id) or annotated with the error message. -/
def historyFor (account : Account) : NetOutcome → HistoryRow
  | .ok vid => ⟨account, .success, none, some vid⟩
  | .err msg => ⟨account, .failed, some msg, none⟩

/-- Embedding of the publish_post task body.  `net` abstracts the remote
publish outcome per account, `now` stamps published_at.  The `self.retry`
call is represented by the `retryScheduled` result. -/
def publish_post (net : Account → NetOutcome) (media_root backend_url : PyStr)
    (now : Int) (st : PublishState) : PublishState × TaskResult :=
  let post := st.post
  if post.is_deleted then (st, .not_found)
  else if post.status = .published then (st, .already_published)
  else
    let post1 := { post with status := .publishing }
    let accounts := post.accounts.filter fun a => !a.is_deleted
    if accounts.isEmpty then
      let post2 := { post1 with
                     status := PostStatus.failed,
                     error_message := some "No active TikTok accounts configured" }
      ({ st with post := post2 }, .no_accounts)
    else
      let media_items := post.media.filter fun m => !m.is_deleted
      let video_media := (media_items.filter fun m =>
        m.media_type = .video ∨ m.media_type = .slideshow_video).head?
      let photo_media := sortByOrder (media_items.filter fun m =>
        m.media_type = .image ∧ m.is_slideshow_source = false)
      let step := fun (acc : List HistoryRow × Bool) (account : Account) =>
        let outcome := attemptForAccount net media_root backend_url post
          photo_media video_media account
        (acc.1 ++ [historyFor account outcome],
          acc.2 && (match outcome with | .ok _ => true | .err _ => false))
      let r := accounts.foldl step ([], true)
      if r.2 then
        let postPub := { post1 with
                         status := PostStatus.published,
                         published_at := some now,
                         error_message := none }
        (⟨postPub, st.history ++ r.1⟩, .success accounts.length)
      else
        let rc := post.retry_count + 1
        let postFail := { post1 with
                          status := PostStatus.failed,
                          retry_count := rc,
                          error_message := some "Publishing failed for some accounts. See publish history for details." }
        let st2 : PublishState := ⟨postFail, st.history ++ r.1⟩
        if rc < post.max_retries then (st2, .retryScheduled (retryCountdown rc))
        else (st2, .max_retries_exceeded rc)

def aliceAccount : Account := ⟨1, "alice", false⟩

/-- An already published post with one active account. -/
def pubPost : Post :=
  ⟨PostStatus.published, "video", [aliceAccount], [], 0, 3, none, some 123, false⟩

/-- A due post with one active account and no media: its per-account attempt
fails without any remote call. -/
def noMediaPost : Post :=
  ⟨PostStatus.pending, "video", [aliceAccount], [], 0, 3, none, none, false⟩

/-- A post whose only target account is soft-deleted. -/
def orphanPost : Post :=
  ⟨PostStatus.scheduled, "video", [⟨2, "bob", true⟩], [], 0, 3, none, none, false⟩

/-- C4: invoking publish_post on a post whose status is already published is a
no-op: it returns the already-published result, creates no history row and
leaves every field of the state unchanged. -/
theorem publish_already_published_noop (net : Account → NetOutcome)
    (media_root backend_url : PyStr) (now : Int) (st : PublishState)
    (hdel : st.post.is_deleted = false)
    (hpub : st.post.status = PostStatus.published) :
    publish_post net media_root backend_url now st =
      (st, TaskResult.already_published) := by
  simp [publish_post, hdel, hpub]

theorem publish_already_published_noop_witness :
    pubPost.is_deleted = false ∧ pubPost.status = PostStatus.published ∧
    publish_post (fun _ => NetOutcome.err "e") [] [] 0 ⟨pubPost, []⟩
      = (⟨pubPost, []⟩, TaskResult.already_published) :=
  ⟨rfl, rfl, publish_already_published_noop _ _ _ _ _ rfl rfl⟩

/-- C9: when no active (non-deleted) target account exists, publish_post sets
the post to failed with a descriptive error and returns at once: no history
row is appended, the retry count is untouched and no retry is scheduled. -/
theorem publish_no_accounts_fatal (net : Account → NetOutcome)
    (media_root backend_url : PyStr) (now : Int) (st : PublishState)
    (hdel : st.post.is_deleted = false)
    (hpub : ¬ st.post.status = PostStatus.published)
    (hacc : st.post.accounts.filter (fun a => !a.is_deleted) = []) :
    publish_post net media_root backend_url now st =
      (⟨{ st.post with
          status := PostStatus.failed,
          error_message := some "No active TikTok accounts configured" },
        st.history⟩, TaskResult.no_accounts) := by
  simp [publish_post, hdel, hpub, hacc]

theorem publish_no_accounts_fatal_witness :
    orphanPost.is_deleted = false
    ∧ (¬ orphanPost.status = PostStatus.published)
    ∧ orphanPost.accounts.filter (fun a => !a.is_deleted) = []
    ∧ publish_post (fun _ => NetOutcome.ok "v") [] [] 0 ⟨orphanPost, []⟩
      = (⟨{ orphanPost with
            status := PostStatus.failed,
            error_message := some "No active TikTok accounts configured" },
          []⟩, TaskResult.no_accounts) :=
  ⟨rfl, by decide, rfl,
    publish_no_accounts_fatal _ _ _ _ _ rfl (by decide) rfl⟩

/-- C3: evaluation of publish_post at the first failing retry cycle.  On a
post with retry_count = 0 and max_retries = 3 whose single attempt fails, the
post becomes failed with retry_count 1 and the scheduled retry countdown is
900 s (15 min), because the delay list is indexed with the post-increment
retry_count — whereas the task's own docstring (and the spec ladder) put the
first retry at 300 s (5 min). -/
theorem publish_first_retry_delay_bug :
    (publish_post (fun _ => NetOutcome.err "network error") [] [] 0
        ⟨noMediaPost, []⟩).2 = TaskResult.retryScheduled 900
    ∧ (publish_post (fun _ => NetOutcome.err "network error") [] [] 0
        ⟨noMediaPost, []⟩).1.post.retry_count = 1
    ∧ (publish_post (fun _ => NetOutcome.err "network error") [] [] 0
        ⟨noMediaPost, []⟩).1.post.status = PostStatus.failed
    ∧ retryCountdown 1 = 900
    ∧ documented_retry_delay 1 = 300 := by
  refine ⟨?_, ?_, ?_, by decide, by decide⟩ <;> decide

/-! ### Due-post poller (check_scheduled_posts_task.py) -/

structure SchedPost where
  id : Nat
  status : PostStatus
  scheduled_time : Int
  retry_count : Nat
  max_retries : Nat
  is_deleted : Bool
deriving DecidableEq, Repr

/-- Queryset filter of check_scheduled_posts: status scheduled, scheduled
time at most 5 minutes ahead and at most 1 hour past, not deleted, and
retry_count below the hard-coded constant 3. -/
def pollerQuery (now : Int) (p : SchedPost) : Bool :=
  decide (p.status = PostStatus.scheduled
    ∧ p.scheduled_time ≤ now + 300
    ∧ p.scheduled_time ≥ now - 3600
    ∧ p.is_deleted = false
    ∧ p.retry_count < 3)

/-- Embedding of the check_scheduled_posts task: select the posts matching
the queryset filter, then for each one whose scheduled_time has arrived set
its status to pending and enqueue a publish job.  Returns the updated posts
together with the enqueued post ids. -/
def check_scheduled_posts (now : Int) (db : List SchedPost) :
    List SchedPost × List Nat :=
  let matched := db.filter (pollerQuery now)
  let enq := (matched.filter fun p => decide (p.scheduled_time ≤ now)).map
    fun p => p.id
  let db2 := db.map fun p =>
    if pollerQuery now p && decide (p.scheduled_time ≤ now) then
      { p with status := PostStatus.pending }
    else p
  (db2, enq)

/-- Follows the claim words: a post is eligible when it is a non-deleted
scheduled post whose scheduled_time lies in the 5-minute forward window and
at most 1 hour in the past, with retry budget left (retry_count below the
post's own max_retries). -/
def specPollerEligible (now : Int) (p : SchedPost) : Bool :=
  decide (p.status = PostStatus.scheduled
    ∧ p.is_deleted = false
    ∧ p.scheduled_time ≤ now + 300
    ∧ p.scheduled_time ≥ now - 3600
    ∧ p.retry_count < p.max_retries)

/-- Eligibility actually enforced by the code: the post must already be due
(scheduled_time ≤ now, not merely within the forward window) and have
retry_count < 3 regardless of its max_retries field. -/
def codePollerEligible (now : Int) (p : SchedPost) : Bool :=
  decide (p.status = PostStatus.scheduled
    ∧ p.is_deleted = false
    ∧ p.scheduled_time ≤ now
    ∧ p.scheduled_time ≥ now - 3600
    ∧ p.retry_count < 3)

theorem eligible_eq (now : Int) (p : SchedPost) :
    (pollerQuery now p && decide (p.scheduled_time ≤ now))
      = codePollerEligible now p := by
  unfold pollerQuery codePollerEligible
  rw [← Bool.decide_and, decide_eq_decide]
  constructor
  · rintro ⟨⟨h1, h2, h3, h4, h5⟩, h6⟩
    exact ⟨h1, h4, h6, h3, h5⟩
  · rintro ⟨h1, h4, h6, h3, h5⟩
    exact ⟨⟨h1, by omega, h3, h4, h5⟩, h6⟩

/-- A post scheduled 60 s in the future: inside the claim's forward window,
but the code does not enqueue it. -/
def futurePost : SchedPost := ⟨10, PostStatus.scheduled, 60, 0, 3, false⟩

/-- A due post with retry_count 3 and max_retries 5: the claim's retry budget
is not exhausted, but the hard-coded bound 3 makes the code skip it. -/
def budgetPost : SchedPost := ⟨11, PostStatus.scheduled, 0, 3, 5, false⟩

/-- C7 counterexample: two posts the claim says the poller enqueues, which
the code does not enqueue. -/
theorem poller_claim_counterexample :
    specPollerEligible 0 futurePost = true
    ∧ (check_scheduled_posts 0 [futurePost]).2 = []
    ∧ specPollerEligible 0 budgetPost = true
    ∧ (check_scheduled_posts 0 [budgetPost]).2 = [] := by decide

/-- C7 (amended): a poller run enqueues exactly the non-deleted scheduled
posts that are due (scheduled_time ≤ now), at most 1 hour overdue, and have
retry_count < 3; exactly these posts move to pending status. -/
theorem poller_enqueues_exactly_due (now : Int) (db : List SchedPost) :
    (check_scheduled_posts now db).2
      = (db.filter (codePollerEligible now)).map (fun p => p.id)
    ∧ (check_scheduled_posts now db).1
      = db.map (fun p =>
          if codePollerEligible now p then { p with status := PostStatus.pending }
          else p) := by
  constructor
  · show ((db.filter (pollerQuery now)).filter
        (fun p => decide (p.scheduled_time ≤ now))).map (fun p => p.id) = _
    rw [List.filter_filter]
    congr 1
    apply List.filter_congr
    intro p _
    rw [Bool.and_comm, eligible_eq]
  · show db.map _ = _
    apply List.map_congr_left
    intro p _
    rw [eligible_eq]

/-! ### Overlapping poller runs (C2) -/

/-- Phase of one poller run over a single candidate post: the queryset has
not been evaluated yet, or it has been read and the run remembers whether the
post matched, or the run is finished. -/
inductive RunPhase
  | toRead
  | toWrite (matched : Bool)
  | finished
deriving DecidableEq, Repr

structure PollerSys where
  post : SchedPost
  now : Int
  enqueued : Nat
  run0 : RunPhase
  run1 : RunPhase
deriving DecidableEq, Repr

/-- One execution step of a poller run: the read step evaluates the queryset
filter plus the due check against the shared post row; the write step saves
status = pending and enqueues the publish job.  The source performs the read
and the write as two separate database operations with no lock and no
conditional update in between. -/
def stepRun (post : SchedPost) (now : Int) (enq : Nat) :
    RunPhase → SchedPost × Nat × RunPhase
  | .toRead =>
    (post, enq,
      .toWrite (pollerQuery now post && decide (post.scheduled_time ≤ now)))
  | .toWrite matched =>
    if matched then ({ post with status := PostStatus.pending }, enq + 1, .finished)
    else (post, enq, .finished)
  | .finished => (post, enq, .finished)

def pollerStep (sys : PollerSys) (which : Bool) : PollerSys :=
  if which then
    let r := stepRun sys.post sys.now sys.enqueued sys.run1
    { sys with post := r.1, enqueued := r.2.1, run1 := r.2.2 }
  else
    let r := stepRun sys.post sys.now sys.enqueued sys.run0
    { sys with post := r.1, enqueued := r.2.1, run0 := r.2.2 }

/-- Run two poller executions under an interleaving schedule: each schedule
entry names the run that performs its next step. -/
def runSched (sys : PollerSys) (sched : List Bool) : PollerSys :=
  sched.foldl pollerStep sys

def initSys (p : SchedPost) (now : Int) : PollerSys :=
  ⟨p, now, 0, RunPhase.toRead, RunPhase.toRead⟩

/-- C2 counterexample: two overlapping poller runs that both evaluate the
queryset before either writes enqueue the same due post twice. -/
theorem poller_overlap_double_enqueue :
    (runSched (initSys ⟨20, PostStatus.scheduled, 0, 0, 3, false⟩ 0)
      [false, true, false, true]).enqueued = 2 := by decide

/-- C2 (amended): the scheduled-to-pending transition is a read followed by a
separate write, not an atomic claim; a second poller run that starts after
the first finished sees the pending status and never re-enqueues, so two
non-overlapping runs enqueue the post at most once — the protection fails
only for interleaved runs. -/
theorem poller_sequential_single_enqueue (p : SchedPost) (now : Int) :
    (runSched (initSys p now) [false, false, true, true]).enqueued ≤ 1 := by
  unfold runSched initSys
  simp only [List.foldl, pollerStep, stepRun]
  by_cases h : (pollerQuery now p && decide (p.scheduled_time ≤ now)) = true
  · have hpend : pollerQuery now { p with status := PostStatus.pending } = false := by
      simp [pollerQuery]
    simp [h, hpend]
  · rw [Bool.not_eq_true] at h
    simp only [h]
    by_cases h2 : (pollerQuery now p && decide (p.scheduled_time ≤ now)) = true
    · simp [h2]
    · rw [Bool.not_eq_true] at h2
      simp [h2]

/-! ### Chunked video upload (tiktok_publish_service.py) -/

def MIN_CHUNK_SIZE : Nat := 5 * 1024 * 1024

/-- Embedding of TikTokPublishService._calculate_chunks: files under 5 MiB
use one chunk of exactly the file size; larger files use 5 MiB chunks with
total chunk count ceil(file_size / chunk_size). -/
def calculate_chunks (file_size : Nat) : Nat × Nat :=
  if file_size < MIN_CHUNK_SIZE then (file_size, 1)
  else (MIN_CHUNK_SIZE, (file_size + MIN_CHUNK_SIZE - 1) / MIN_CHUNK_SIZE)

/-- Start byte of chunk i in upload_video_chunks. -/
def chunkStart (chunk_size i : Nat) : Nat := i * chunk_size

/-- Inclusive end byte of chunk i:
`end_byte = min(start_byte + chunk_size, file_size) - 1`. -/
def chunkEnd (chunk_size file_size i : Nat) : Nat :=
  min (i * chunk_size + chunk_size) file_size - 1

/-- Content-Range header sent by _upload_single_chunk:
`bytes {start}-{end}/{total}`. -/
def contentRange (start endByte total : Nat) : String :=
  "bytes " ++ toString start ++ "-" ++ toString endByte ++ "/" ++ toString total

/-- Payload of chunk i: `f.seek(start_byte); f.read(end_byte - start_byte + 1)`. -/
def chunkData {α : Type} (file : List α) (chunk_size i : Nat) : List α :=
  (file.drop (chunkStart chunk_size i)).take
    (chunkEnd chunk_size file.length i - chunkStart chunk_size i + 1)

/-- Embedding of upload_video_chunks: the ordered sequence of chunk PUTs,
each carrying its Content-Range header and its payload. -/
def upload_video_chunks {α : Type} (file : List α) (chunk_size total_chunks : Nat) :
    List (String × List α) :=
  (List.range total_chunks).map fun i =>
    (contentRange (chunkStart chunk_size i) (chunkEnd chunk_size file.length i)
        file.length,
      chunkData file chunk_size i)

theorem calculate_chunks_spec (L : Nat) (hL : 0 < L) :
    0 < (calculate_chunks L).1
    ∧ 0 < (calculate_chunks L).2
    ∧ L ≤ (calculate_chunks L).2 * (calculate_chunks L).1
    ∧ ∀ i, i < (calculate_chunks L).2 → i * (calculate_chunks L).1 < L := by
  unfold calculate_chunks
  by_cases h : L < MIN_CHUNK_SIZE
  · refine ⟨by simpa [h] using hL, by simp [h], by simp [h], ?_⟩
    intro i hi
    simp only [h, if_true] at hi ⊢
    interval_cases i
    simpa using hL
  · have hM : 0 < MIN_CHUNK_SIZE := by norm_num [MIN_CHUNK_SIZE]
    have hd := Nat.div_add_mod (L + MIN_CHUNK_SIZE - 1) MIN_CHUNK_SIZE
    have hr := Nat.mod_lt (L + MIN_CHUNK_SIZE - 1) hM
    refine ⟨by simpa [h] using hM, ?_, ?_, ?_⟩
    · simp only [h, if_false]
      have : MIN_CHUNK_SIZE ≤ L := Nat.le_of_not_lt h
      have h1 : 1 ≤ (L + MIN_CHUNK_SIZE - 1) / MIN_CHUNK_SIZE := by
        apply Nat.one_le_div_iff hM |>.mpr
        omega
      simpa using h1
    · simp only [h, if_false]
      rw [Nat.mul_comm]
      generalize hq :
        MIN_CHUNK_SIZE * ((L + MIN_CHUNK_SIZE - 1) / MIN_CHUNK_SIZE) = P at hd
      omega
    · intro i hi
      simp only [h, if_false] at hi ⊢
      have h2 : (i + 1) * MIN_CHUNK_SIZE
          ≤ ((L + MIN_CHUNK_SIZE - 1) / MIN_CHUNK_SIZE) * MIN_CHUNK_SIZE :=
        Nat.mul_le_mul_right _ hi
      rw [Nat.add_mul, Nat.one_mul,
        Nat.mul_comm ((L + MIN_CHUNK_SIZE - 1) / MIN_CHUNK_SIZE) MIN_CHUNK_SIZE]
        at h2
      generalize hq :
        MIN_CHUNK_SIZE * ((L + MIN_CHUNK_SIZE - 1) / MIN_CHUNK_SIZE) = P at hd h2
      generalize ha : i * MIN_CHUNK_SIZE = A at h2 ⊢
      omega

theorem chunkData_eq_take (file : List α) (c i : Nat) (hc : 0 < c)
    (hi : i * c < file.length) :
    chunkData file c i = (file.drop (i * c)).take c := by
  unfold chunkData chunkStart chunkEnd
  rw [List.take_eq_take]
  simp only [List.length_drop]
  generalize i * c = a at hi ⊢
  omega

theorem join_take_chunks (file : List α) (c : Nat) (n : Nat) :
    ((List.range n).map (fun i => (file.drop (i * c)).take c)).flatten
      = file.take (n * c) := by
  induction n with
  | zero => simp
  | succ m ih =>
    rw [List.range_succ, List.map_append, List.flatten_append, ih]
    simp only [List.map_cons, List.map_nil, List.flatten_cons, List.flatten_nil,
      List.append_nil]
    rw [Nat.succ_mul, List.take_add]

/-- C6: with the chunk parameters computed for a non-empty file, the chunk
byte ranges start at byte 0, end at the last byte, are contiguous in
ascending order, each PUT carries the exact Content-Range header for its
range, and concatenating the chunk payloads reconstructs the file
byte-for-byte. -/
theorem chunked_upload_reconstructs {α : Type} (file : List α)
    (h : 0 < file.length) :
    ((upload_video_chunks file (calculate_chunks file.length).1
        (calculate_chunks file.length).2).map (fun x => x.2)).flatten = file
    ∧ (upload_video_chunks file (calculate_chunks file.length).1
        (calculate_chunks file.length).2).length
      = (calculate_chunks file.length).2
    ∧ chunkStart (calculate_chunks file.length).1 0 = 0
    ∧ chunkEnd (calculate_chunks file.length).1 file.length
        ((calculate_chunks file.length).2 - 1) = file.length - 1
    ∧ (∀ i, i + 1 < (calculate_chunks file.length).2 →
        chunkEnd (calculate_chunks file.length).1 file.length i + 1
          = chunkStart (calculate_chunks file.length).1 (i + 1))
    ∧ (∀ i, i < (calculate_chunks file.length).2 →
        (upload_video_chunks file (calculate_chunks file.length).1
            (calculate_chunks file.length).2).getD i ("", [])
          = (contentRange (chunkStart (calculate_chunks file.length).1 i)
              (chunkEnd (calculate_chunks file.length).1 file.length i)
              file.length,
             chunkData file (calculate_chunks file.length).1 i)) := by
  obtain ⟨hc, hn, hcover, htight⟩ := calculate_chunks_spec file.length h
  set c := (calculate_chunks file.length).1 with hcdef
  set n := (calculate_chunks file.length).2 with hndef
  have hcn : c ≤ n * c := Nat.le_mul_of_pos_left c hn
  refine ⟨?_, ?_, ?_, ?_, ?_, ?_⟩
  · unfold upload_video_chunks
    rw [List.map_map]
    have hmap : (List.range n).map ((fun x : String × List α => x.2) ∘
          (fun i => (contentRange (chunkStart c i) (chunkEnd c file.length i)
            file.length, chunkData file c i)))
        = (List.range n).map (fun i => (file.drop (i * c)).take c) := by
      apply List.map_congr_left
      intro i hi
      simp only [Function.comp_apply]
      exact chunkData_eq_take file c i hc (htight i (List.mem_range.mp hi))
    rw [hmap, join_take_chunks]
    exact List.take_of_length_le (le_trans (le_of_eq rfl) hcover)
  · unfold upload_video_chunks
    simp
  · unfold chunkStart
    exact Nat.zero_mul c
  · unfold chunkEnd
    rw [Nat.sub_one_mul]
    generalize hP : n * c = P at hcover hcn
    omega
  · intro i hi
    have ht := htight (i + 1) hi
    unfold chunkEnd chunkStart
    rw [Nat.add_mul, Nat.one_mul] at ht ⊢
    generalize i * c = A at ht ⊢
    omega
  · intro i hi
    unfold upload_video_chunks
    rw [List.getD_eq_getElem?_getD, List.getElem?_map, List.getElem?_range hi]
    simp

theorem chunked_upload_reconstructs_witness :
    0 < ([0, 1, 2] : List Nat).length
    ∧ (((upload_video_chunks ([0, 1, 2] : List Nat) 3 1).map (fun x => x.2)).flatten
        = [0, 1, 2]
      ∧ (upload_video_chunks ([0, 1, 2] : List Nat) 3 1).length = 1
      ∧ chunkStart 3 0 = 0
      ∧ chunkEnd 3 3 0 = 2
      ∧ (∀ i, i + 1 < 1 → chunkEnd 3 3 i + 1 = chunkStart 3 (i + 1))
      ∧ (∀ i, i < 1 →
          (upload_video_chunks ([0, 1, 2] : List Nat) 3 1).getD i ("", [])
            = (contentRange (chunkStart 3 i) (chunkEnd 3 3 i) 3,
               chunkData ([0, 1, 2] : List Nat) 3 i))) :=
  ⟨by decide, chunked_upload_reconstructs ([0, 1, 2] : List Nat) (by decide)⟩

/-! ### Safety of sanitize_media_path (C10) -/

theorem slashify_eq_dot {c : Char} (h : slashify c = '.') : c = '.' := by
  unfold slashify at h
  split at h
  · exact absurd h (by decide)
  · exact h

theorem infix_of_adjacent_dots :
    ∀ (l : PyStr) (n : Nat), l[n]? = some '.' → l[n + 1]? = some '.' →
      DOTDOT <:+: l := by
  intro l
  induction l with
  | nil => intro n h1 _; simp at h1
  | cons a l ih =>
    intro n h1 h2
    cases n with
    | zero =>
      rw [List.getElem?_cons_zero] at h1
      rw [List.getElem?_cons_succ] at h2
      cases l with
      | nil => simp at h2
      | cons b l2 =>
        rw [List.getElem?_cons_zero] at h2
        obtain rfl : a = '.' := by simpa using h1
        obtain rfl : b = '.' := by simpa using h2
        exact ⟨[], l2, rfl⟩
    | succ m =>
      rw [List.getElem?_cons_succ] at h1 h2
      exact List.infix_cons (ih m h1 h2)

theorem adjacent_dots_of_infix {l : PyStr} (h : DOTDOT <:+: l) :
    ∃ n, l[n]? = some '.' ∧ l[n + 1]? = some '.' := by
  obtain ⟨s, t, hst⟩ := h
  refine ⟨s.length, ?_, ?_⟩
  · rw [← hst, List.append_assoc, List.getElem?_append_right (Nat.le_refl _)]
    simp [DOTDOT]
  · rw [← hst, List.append_assoc,
      List.getElem?_append_right (Nat.le_succ _)]
    simp [DOTDOT]

theorem dotdot_infix_map {l : PyStr} (h : DOTDOT <:+: l.map slashify) :
    DOTDOT <:+: l := by
  obtain ⟨n, h1, h2⟩ := adjacent_dots_of_infix h
  rw [List.getElem?_map] at h1 h2
  obtain ⟨c1, hc1, hs1⟩ := Option.map_eq_some'.mp h1
  obtain ⟨c2, hc2, hs2⟩ := Option.map_eq_some'.mp h2
  rw [slashify_eq_dot hs1] at hc1
  rw [slashify_eq_dot hs2] at hc2
  exact infix_of_adjacent_dots l n hc1 hc2

theorem dotdot_infix_drop {l : PyStr} {k : Nat} (h : DOTDOT <:+: l.drop k) :
    DOTDOT <:+: l :=
  h.trans (List.drop_suffix k l).isInfix

theorem dotdot_infix_lstrip {l : PyStr} (h : DOTDOT <:+: lstripSlash l) :
    DOTDOT <:+: l :=
  h.trans (List.dropWhile_suffix _).isInfix

/-- C10 (amended): sanitize_media_path never returns a path containing the
substring '..'; every input whose normalized form contains '..' is rejected;
and an absolute input is rejected whenever the normalized MEDIA_ROOT is not a
string prefix of the normalized input (the accept test is plain string-prefix
comparison, not directory containment). -/
theorem sanitize_media_path_no_traversal (media_root file_path : PyStr) :
    (∀ r, sanitize_media_path media_root file_path = some r → ¬ DOTDOT <:+: r)
    ∧ (strContains DOTDOT (normpath file_path) = true →
        sanitize_media_path media_root file_path = none)
    ∧ (isabs (normpath file_path) = true →
        startswith (normpath file_path) (normpath media_root) = false →
        sanitize_media_path media_root file_path = none) := by
  refine ⟨?_, ?_, ?_⟩
  · intro r hr
    simp only [sanitize_media_path] at hr
    split at hr
    · exact absurd hr (by simp)
    split at hr
    next hdd =>
      exact absurd hr (by simp)
    next hdd =>
      have hN : ¬ DOTDOT <:+: normpath file_path := by
        rw [Bool.not_eq_true] at hdd
        exact of_decide_eq_false hdd
      split at hr
      · split at hr
        · obtain rfl := Option.some.inj hr
          intro hinf
          exact hN (dotdot_infix_drop (dotdot_infix_lstrip (dotdot_infix_map hinf)))
        · exact absurd hr (by simp)
      split at hr
      · obtain rfl := Option.some.inj hr
        intro hinf
        exact hN (dotdot_infix_drop (dotdot_infix_map hinf))
      split at hr
      · obtain rfl := Option.some.inj hr
        intro hinf
        exact hN (dotdot_infix_map hinf)
      · exact absurd hr (by simp)
  · intro hdd
    simp only [sanitize_media_path]
    split
    · rfl
    · simp [hdd]
  · intro hab hpre
    simp only [sanitize_media_path]
    split
    · rfl
    split
    · rfl
    · simp [hab, hpre]

theorem sanitize_media_path_no_traversal_witness :
    strContains DOTDOT (normpath "a/../../etc/passwd".toList) = true
    ∧ sanitize_media_path "/app/media".toList "a/../../etc/passwd".toList
      = none :=
  ⟨by decide,
    (sanitize_media_path_no_traversal "/app/media".toList
      "a/../../etc/passwd".toList).2.1 (by decide)⟩

/-- Follows the claim words: a path lies under MEDIA_ROOT when it equals the
root or sits below it as a directory. -/
def specLiesUnder (root p : PyStr) : Bool :=
  decide (p = root) || (root ++ ['/']).isPrefixOf p

/-- C10 counterexample: a backslash-led relative input is returned as an
absolute-looking path, and an absolute sibling of MEDIA_ROOT (which shares the
string prefix but does not lie under the directory) is accepted rather than
rejected. -/
theorem sanitize_media_path_counterexample :
    (sanitize_media_path "/app/media".toList "\\x".toList = some "/x".toList
      ∧ isabs "/x".toList = true)
    ∧ (sanitize_media_path "/app/media".toList "/app/mediaevil/x".toList
        = some "evil/x".toList
      ∧ specLiesUnder "/app/media".toList "/app/mediaevil/x".toList = false) := by
  exact ⟨⟨by decide, by decide⟩, ⟨by decide, by decide⟩⟩

/-! ### Outbound-call traces on the publish path (C1) -/

/-- Externally visible events of the publish path: a RateLimiter.is_allowed
permission check, a client POST to a named endpoint, or the raw requests.put
of one chunk attempt. -/
inductive ApiEvent
  | rateCheck (identifier : String)
  | httpPost (endpoint : String)
  | httpPut
deriving DecidableEq, Repr

def ApiEvent.isRemoteCall : ApiEvent → Bool
  | .rateCheck _ => false
  | .httpPost _ => true
  | .httpPut => true

def ApiEvent.isRateCheck : ApiEvent → Bool
  | .rateCheck _ => true
  | _ => false

/-- Outbound calls of initiate_video_post: one client.post to the init
endpoint selected by use_inbox.  The source contains no is_allowed call. -/
def initiate_video_post_events (use_inbox : Bool) : List ApiEvent :=
  [ApiEvent.httpPost (if use_inbox then "post/publish/inbox/video/init/"
    else "post/publish/video/init/")]

/-- Outbound calls of _upload_single_chunk: one requests.put per attempt,
1 up to max_retries = 3 attempts. -/
def upload_single_chunk_events (attempts : Nat) : List ApiEvent :=
  List.replicate attempts ApiEvent.httpPut

/-- Outbound calls of upload_video_chunks: every chunk attempt in order. -/
def upload_video_chunks_events (attemptsPerChunk : List Nat) : List ApiEvent :=
  attemptsPerChunk.flatMap upload_single_chunk_events

/-- Outbound calls of check_publish_status: one client.post to the status
endpoint. -/
def check_publish_status_events : List ApiEvent :=
  [ApiEvent.httpPost "post/publish/status/fetch/"]

/-- Outbound calls of the publish_video flow: initiate, then the chunk
attempts, then one status poll per loop iteration. -/
def publish_video_events (use_inbox : Bool) (attemptsPerChunk : List Nat)
    (poll_attempts : Nat) : List ApiEvent :=
  initiate_video_post_events use_inbox
    ++ upload_video_chunks_events attemptsPerChunk
    ++ (List.range poll_attempts).flatMap (fun _ => check_publish_status_events)

/-- Outbound calls of TikTokPhotoService.publish_photos: the single submit
POST to post/publish/content/init/ followed by the status polls. -/
def publish_photos_events (poll_attempts : Nat) : List ApiEvent :=
  ApiEvent.httpPost "post/publish/content/init/"
    :: (List.range poll_attempts).flatMap (fun _ => check_publish_status_events)

/-- Follows the claim words: every remote call in the trace is preceded by
some rate-limiter permission check. -/
def specRateLimited (tr : List ApiEvent) : Prop :=
  ∀ (i : Nat) (e : ApiEvent), tr[i]? = some e → e.isRemoteCall = true →
    ∃ (j : Nat) (e2 : ApiEvent),
      j < i ∧ tr[j]? = some e2 ∧ e2.isRateCheck = true

/-- C1 counterexample: the publish_video trace of a single-chunk video (one
successful chunk attempt, one status poll) starts with a remote call that no
rate-limiter check precedes — and the same holds for the photo trace. -/
theorem publish_path_unchecked_remote_call :
    (¬ specRateLimited (publish_video_events true [1] 1))
    ∧ (¬ specRateLimited (publish_photos_events 1)) := by
  constructor
  · intro hall
    unfold specRateLimited at hall
    obtain ⟨j, e2, hlt, _, _⟩ := hall 0
      (ApiEvent.httpPost "post/publish/inbox/video/init/") (by decide) (by decide)
    omega
  · intro hall
    unfold specRateLimited at hall
    obtain ⟨j, e2, hlt, _, _⟩ := hall 0
      (ApiEvent.httpPost "post/publish/content/init/") (by decide) (by decide)
    omega

/-- C1 (amended): the publish path never consults the rate limiter at all —
for every parameter choice, the video flow trace and the photo flow trace
contain not a single rateCheck event (RateLimiter.is_allowed has no caller on
the publish path; only the HTTP session's own retry policy governs calls). -/
theorem publish_path_never_checks_rate_limiter (use_inbox : Bool)
    (attemptsPerChunk : List Nat) (poll_attempts poll_attempts2 : Nat) :
    (publish_video_events use_inbox attemptsPerChunk poll_attempts).countP
        (fun e => e.isRateCheck) = 0
    ∧ (publish_photos_events poll_attempts2).countP
        (fun e => e.isRateCheck) = 0 := by
  constructor
  · rw [List.countP_eq_zero]
    intro e he
    simp only [publish_video_events, initiate_video_post_events,
      upload_video_chunks_events, upload_single_chunk_events,
      check_publish_status_events, List.mem_append, List.mem_flatMap,
      List.mem_singleton, List.mem_replicate, List.mem_range] at he
    rcases he with (he | ⟨a, _, _, he⟩) | ⟨_, _, he⟩ <;> subst he <;>
      simp [ApiEvent.isRateCheck]
  · rw [List.countP_eq_zero]
    intro e he
    simp only [publish_photos_events, check_publish_status_events,
      List.mem_cons, List.mem_flatMap, List.mem_singleton, List.mem_range] at he
    rcases he with he | ⟨_, _, he⟩
    · subst he; simp [ApiEvent.isRateCheck]
    · rcases he with he | he
      · subst he; simp [ApiEvent.isRateCheck]
      · simp at he

end TikTokAdmin
